import Mathlib

/-!
# Verification of the statement-parsing pipeline (src/lib/actions.ts)

Shallow embedding of the statement-parsing core of the expense-tracker
repository: the field resolver (`findField`), the account-number extractor
(`getAccountNumberFromCSV`), the structured CSV parser with its plain-text
line-scanner fallback (`parseStatement`), the assisted-extraction item
conversion (`parseStatementWithGemini` / `geminiConvert`), and the
orchestrator (`processStatement`).

Modelling conventions:
* JS strings are Lean `String`s; all scanners work over `List Char` with
  structural recursion so every definition evaluates in the kernel.
* JS numbers are rationals (`ℚ`).  The amounts flowing through this code are
  produced by `parseFloat` on decimal strings, so they are exact decimals.
  `NaN` never survives into a transaction: every `parseFloat` call in the
  source is either guarded (`|| 0`, which maps NaN to 0) or applied to a
  string already matched by `/[\d,]+\.\d{2}/`, which always parses.  The
  filter `!isNaN(tx.amount)` is therefore modelled by the constantly-false
  `jsIsNaN`.
* A JS `Date` value is either a calendar day (`YMD`, time-of-day dropped) or
  the Invalid Date, modelled as `Option YMD` with `none` = invalid.
  `new Date()` / `Date.now()` are passed in as explicit `now : YMD` /
  `nowMs : Nat` parameters.  `Date.prototype.toISOString()` throws a
  `RangeError` on an Invalid Date; that throw is modelled as
  `Except.error ()`.
* `new Date(string)` (V8) is modelled for the string shapes this code feeds
  it: ISO `YYYY-MM-DD`, and the legacy US `M/D/Y` (or `M-D-Y`) form where a
  two-digit year below 50 means 20xx; everything else is Invalid.  A
  composed `new Date(`${year}-${month}-${day}`)` is modelled by `mkDateISO`
  (valid iff the year has four digits and the day/month form a real
  calendar date, per the ECMAScript ISO date-string grammar).
* The `csv-parse` library call (`columns: true, skip_empty_lines,
  relax_column_count, skip_records_with_error, trim`) is modelled by
  `csvRecords`: split on newlines, drop empty lines, head line gives the
  column names, each further line is zipped with them (shorter rows simply
  produce fewer keys, mirroring relaxed column counts; quoting is not
  exercised by any input studied here).
* `tx-${Date.now()}-${random}` ids: the pseudo-random suffix is abstracted
  away; ids are `"tx-" ++ toString nowMs` (no claim depends on id values,
  only on which component assigns them).
* The Gemini network call is abstracted as a `resp : Option (List GExtracted)`
  parameter (`none` = any network/envelope/JSON failure, which the source
  collapses to an empty result or a caught exception).  An element of the
  extracted JSON array is either an object (`GItem`) or the JSON literal
  `null`; a null element throws a `TypeError` at `typeof item.amount`
  (outside the per-item try, which protects only the date), and that throw
  reaches the function's own catch, collapsing the whole batch to `[]`.
-/

/-! ## Character and string helpers (JS semantics) -/

def isDig (c : Char) : Bool := decide ('0' ≤ c) && decide (c ≤ '9')

def digVal (c : Char) : Nat := c.toNat - '0'.toNat

def digitsToNat (cs : List Char) : Nat := cs.foldl (fun a c => a * 10 + digVal c) 0

def isWS (c : Char) : Bool :=
  c == ' ' || c == '\t' || c == '\n' || c == '\r' || c == '\x0B' || c == '\x0C'

def isWordChar (c : Char) : Bool :=
  (decide ('a' ≤ c) && decide (c ≤ 'z')) || (decide ('A' ≤ c) && decide (c ≤ 'Z')) ||
    isDig c || c == '_'

def trimChars (cs : List Char) : List Char :=
  ((cs.dropWhile isWS).reverse.dropWhile isWS).reverse

/-- Model of `String.prototype.trim()`. -/
def jsTrim (s : String) : String := String.mk (trimChars s.data)

/-- Model of `String.prototype.toLowerCase()` (ASCII inputs). -/
def lowerS (s : String) : String := String.mk (s.data.map Char.toLower)

def matchesAt : List Char → List Char → Bool
  | [], _ => true
  | _ :: _, [] => false
  | n :: ns, h :: hs => n == h && matchesAt ns hs

def containsChars (needle : List Char) : List Char → Bool
  | [] => needle.isEmpty
  | c :: t => matchesAt needle (c :: t) || containsChars needle t

/-- Model of `String.prototype.includes(sub)`. -/
def containsS (s sub : String) : Bool := containsChars sub.data s.data

def splitCharAux (sep : Char) (cur : List Char) : List Char → List String
  | [] => [String.mk cur.reverse]
  | c :: rest =>
    if c == sep then String.mk cur.reverse :: splitCharAux sep [] rest
    else splitCharAux sep (c :: cur) rest

def splitChar (sep : Char) (s : String) : List String := splitCharAux sep [] s.data

/-- Model of `content.split("\n")`. -/
def splitLines (s : String) : List String := splitChar '\n' s

def splitComma (s : String) : List String := splitChar ',' s

/-- JS `a || b` on strings (empty string is falsy). -/
def jsOr (a b : String) : String := if a = "" then b else a

/-- JS `Math.abs`. -/
def qabs (q : ℚ) : ℚ := if q < 0 then -q else q

/-- Model of `Number.parseFloat`: skip leading whitespace, optional sign,
integer digits, optional fraction.  `none` models `NaN`. -/
def jsParseFloat (s : String) : Option ℚ :=
  let cs := s.data.dropWhile isWS
  let p := match cs with
    | '-' :: r => (true, r)
    | '+' :: r => (false, r)
    | _ => (false, cs)
  let ip := p.2.takeWhile isDig
  let r2 := p.2.dropWhile isDig
  let fp := match r2 with
    | '.' :: r3 => r3.takeWhile isDig
    | _ => ([] : List Char)
  if ip.isEmpty && fp.isEmpty then none
  else
    let mag : ℚ := mkRat (Int.ofNat (digitsToNat ip * 10 ^ fp.length + digitsToNat fp)) (10 ^ fp.length)
    some (if p.1 then -mag else mag)

/-- Model of `.replace(/[^\d.-]/g, "")`. -/
def cleanAmount (s : String) : String :=
  String.mk (s.data.filter (fun c => isDig c || c == '.' || c == '-'))

/-- Model of `.replace(/,/g, "")`. -/
def stripCommas (s : String) : String :=
  String.mk (s.data.filter (fun c => !(c == ',')))

/-! ## Calendar dates and the JS `Date` model -/

structure YMD where
  year : Nat
  month : Nat
  day : Nat
deriving Repr, DecidableEq

def isLeap (y : Nat) : Bool := (y % 4 == 0 && !(y % 100 == 0)) || y % 400 == 0

def daysInMonth (y m : Nat) : Nat :=
  if m == 2 then (if isLeap y then 29 else 28)
  else if m == 4 || m == 6 || m == 9 || m == 11 then 30
  else 31

/-- Build a calendar date, `none` if the components are not a real date. -/
def mkDate (y m d : Nat) : Option YMD :=
  if 1 ≤ m ∧ m ≤ 12 ∧ 1 ≤ d ∧ d ≤ daysInMonth y m then some ⟨y, m, d⟩ else none

/-- `new Date(str)` on a composed ISO string `${year}-${month}-${day}`: the
year must render as four digits for the ECMAScript ISO grammar to accept. -/
def mkDateISO (y m d : Nat) : Option YMD :=
  if 1000 ≤ y ∧ y ≤ 9999 then mkDate y m d else none

/-- V8 legacy two-digit year rule: 0–49 ↦ 20xx, 50–99 ↦ 19xx. -/
def expandUSYear (len y : Nat) : Nat :=
  if len ≤ 2 then (if y < 50 then 2000 + y else 1900 + y) else y

def isoShape : List Char → Option YMD
  | [y1, y2, y3, y4, s1, m1, m2, s2, d1, d2] =>
    if isDig y1 && isDig y2 && isDig y3 && isDig y4 && s1 == '-' &&
        isDig m1 && isDig m2 && s2 == '-' && isDig d1 && isDig d2 then
      mkDate (digitsToNat [y1, y2, y3, y4]) (digitsToNat [m1, m2]) (digitsToNat [d1, d2])
    else none
  | _ => none

def isSep (c : Char) : Bool := c == '/' || c == '-'

/-- V8 legacy `month/day/year` (also with `-`) parse of a whole string. -/
def usShape (cs : List Char) : Option YMD :=
  let a := cs.takeWhile isDig
  let r1 := cs.dropWhile isDig
  if a.isEmpty || decide (a.length > 2) then none else
  match r1 with
  | s1 :: r2 =>
    if isSep s1 then
      let b := r2.takeWhile isDig
      let r3 := r2.dropWhile isDig
      if b.isEmpty || decide (b.length > 2) then none else
      match r3 with
      | s2 :: r4 =>
        if isSep s2 then
          let c := r4.takeWhile isDig
          let r5 := r4.dropWhile isDig
          if c.isEmpty || decide (c.length > 4) || !r5.isEmpty then none
          else mkDate (expandUSYear c.length (digitsToNat c)) (digitsToNat a) (digitsToNat b)
        else none
      | [] => none
    else none
  | [] => none

/-- Model of `new Date(s)` for the string shapes this program produces. -/
def jsDateParse (s : String) : Option YMD :=
  match isoShape s.data with
  | some d => some d
  | none => usShape s.data

/-! ## Regular-expression models -/

/-- One attempt of the date-with-year regex (two digits, slash-or-dash
separator, two digits, separator, 2–4 digits) at the head of the
list: day digits, separator, month digits, separator, 2–4 year digits
(greedy).  Returns (day, month, year digit list). -/
def tryDMYAt : List Char → Option (Nat × Nat × List Char)
  | d1 :: d2 :: s1 :: m1 :: m2 :: s2 :: rest =>
    if isDig d1 && isDig d2 && isSep s1 && isDig m1 && isDig m2 && isSep s2 then
      let ys := (rest.takeWhile isDig).take 4
      if 2 ≤ ys.length then some (digitsToNat [d1, d2], digitsToNat [m1, m2], ys) else none
    else none
  | _ => none

/-- One attempt of the year-less date regex (two digits, slash-or-dash
separator, two digits) at the head of the list. -/
def tryDMAt : List Char → Option (Nat × Nat)
  | d1 :: d2 :: s1 :: m1 :: m2 :: _ =>
    if isDig d1 && isDig d2 && isSep s1 && isDig m1 && isDig m2 then
      some (digitsToNat [d1, d2], digitsToNat [m1, m2])
    else none
  | _ => none

/-- Leftmost match: try the pattern at every suffix. -/
def scanFirst {α : Type} (f : List Char → Option α) : List Char → Option α
  | [] => f []
  | c :: cs =>
    match f (c :: cs) with
    | some r => some r
    | none => scanFirst f cs

def matchDMY (s : String) : Option (Nat × Nat × List Char) := scanFirst tryDMYAt s.data

def matchDM (s : String) : Option (Nat × Nat) := scanFirst tryDMAt s.data

/-- The source's two-step date-token match: first the year-bearing pattern,
then the day/month-only pattern.  Result: (day, month, optional year digits). -/
def matchDateLine (s : String) : Option (Nat × Nat × Option (List Char)) :=
  match matchDMY s with
  | some r => some (r.1, r.2.1, some r.2.2)
  | none =>
    match matchDM s with
    | some r => some (r.1, r.2, none)
    | none => none

/-- Scan for a word-bounded digit run whose length satisfies `pred`
(model of `/\b\d{n}\b/`-style patterns).  `prevWord` tracks whether the
character before the current run (resp. position) is a word character;
`runLen` is the length of the digit run currently being read. -/
def runScan (pred : Nat → Bool) (prevWord : Bool) (runLen : Nat) : List Char → Bool
  | [] => decide (0 < runLen) && !prevWord && pred runLen
  | c :: cs =>
    if isDig c then runScan pred prevWord (runLen + 1) cs
    else
      (decide (0 < runLen) && !prevWord && pred runLen && !isWordChar c) ||
        runScan pred (isWordChar c) 0 cs

/-- Model of `/\b\d{8,}\b/.test(line)` (the `accountPattern` constant). -/
def hasRun8 (s : String) : Bool := runScan (fun n => decide (8 ≤ n)) false 0 s.data

/-- Like `runScan` but returns the matched run (model of `row.match(/\b\d{12}\b/)`).
`run` holds the digits read so far, in reverse. -/
def runFind (pred : Nat → Bool) (prevWord : Bool) (run : List Char) : List Char → Option (List Char)
  | [] =>
    if decide (0 < run.length) && !prevWord && pred run.length then some run.reverse else none
  | c :: cs =>
    if isDig c then runFind pred prevWord (c :: run) cs
    else if decide (0 < run.length) && !prevWord && pred run.length && !isWordChar c then
      some run.reverse
    else runFind pred (isWordChar c) [] cs

/-- One attempt of `/[\d,]+\.\d{2}/` at the head of the list. -/
def isDigComma (c : Char) : Bool := isDig c || c == ','

def tryAmountAt (cs : List Char) : Option (List Char) :=
  let run := cs.takeWhile isDigComma
  if run.isEmpty then none else
  match cs.dropWhile isDigComma with
  | '.' :: a :: b :: _ => if isDig a && isDig b then some (run ++ ['.', a, b]) else none
  | _ => none

/-- Model of `amountLine.match(/[\d,]+\.\d{2}/)` (first match). -/
def matchAmountTok (s : String) : Option String := (scanFirst tryAmountAt s.data).map String.mk

/-- Model of `/^\d{8,}$/.test(s)`. -/
def isDigits8 (s : String) : Bool := decide (8 ≤ s.data.length) && s.data.all isDig

/-! ## CSV records and the field resolver -/

/-- A parsed CSV row: column name ↦ raw value, in insertion order
(JS object from `csv-parse` with `columns: true`). -/
abbrev Record := List (String × String)

def lookupS (r : Record) (k : String) : String := (r.lookup k).getD ""

def firstValS (r : Record) : String := (r.head?.map Prod.snd).getD ""

def firstKeyS (r : Record) : String := (r.head?.map Prod.fst).getD ""

/-- The field resolver of src/lib/actions.ts: first candidate name present as
a key of the record, else the record's first key, else the empty string. -/
def findField (r : Record) (possibleNames : List String) : String :=
  match possibleNames.find? (fun n => (r.lookup n).isSome) with
  | some n => n
  | none => firstKeyS r

/-- Build a record from columns and values; a duplicate column name
overwrites the earlier value in place, as in a JS object literal. -/
def insertKV (r : Record) (k v : String) : Record :=
  if (r.lookup k).isSome then r.map (fun p => if p.1 = k then (k, v) else p)
  else r ++ [(k, v)]

def mkRecord (cols vals : List String) : Record :=
  (cols.zip vals).foldl (fun r kv => insertKV r kv.1 kv.2) []

/-- Model of the `csv-parse` call: skip empty lines, first remaining line is
the header, remaining lines are zipped against the header (relaxed column
counts), optionally trimming every field. -/
def csvRecords (doTrim : Bool) (lines : List String) : List Record :=
  let tr := fun (s : String) => if doTrim then jsTrim s else s
  match lines.filter (fun l => decide (l ≠ "")) with
  | [] => []
  | header :: rows =>
    let cols := (splitComma header).map tr
    rows.map (fun row => mkRecord cols ((splitComma row).map tr))

/-! ## Account-number extraction -/

def accountAliases : List String :=
  ["Account No", "Account Number", "AccountNumber", "Account", "acc_no", "account_no"]

/-- One record of `getAccountNumberFromCSV`'s loop: a truthy known account
column, else the first value when it is an 8-plus-digit run. -/
def accountFromRecord (r : Record) : Option String :=
  match accountAliases.findSome? (fun f =>
      match r.lookup f with
      | some v => if v = "" then none else some (jsTrim v)
      | none => none) with
  | some v => some v
  | none =>
    if firstValS r = "" then none
    else if isDigits8 (jsTrim (firstValS r)) then some (jsTrim (firstValS r))
    else none

/-- `getAccountNumberFromCSV`: parse only the first five lines (the
`to_line: 5` option), without trimming, and scan each record. -/
def getAccountNumberFromCSV (content : String) : Option String :=
  (csvRecords false ((splitLines content).take 5)).findSome? accountFromRecord

/-! ## The structured parser's per-record normalization -/

def dateAliases : List String :=
  ["date", "transaction_date", "trans_date", "Date", "Trans Date"]

def descAliases : List String :=
  ["description", "desc", "narrative", "details", "Description", "Merchant"]

def amountAliases : List String :=
  ["amount", "value", "Amount", "Transaction Amount", "Amount (USD)", "Deposits", "Withdrawals"]

def typeAliases : List String :=
  ["type", "transaction_type", "dc", "Type", "Transaction Type"]

def expandYear (ys : List Char) : Nat :=
  if ys.length = 2 then 2000 + digitsToNat ys else digitsToNat ys

/-- Date normalization of the structured parser for a non-empty date value:
direct `new Date` parse; if invalid, the two regex patterns, rebuilding via
an ISO string (two-digit years prefixed with "20", missing year replaced by
the current year).  `none` means the value stays an Invalid Date. -/
def normalizeDate (now : YMD) (v : String) : Option YMD :=
  match jsDateParse v with
  | some d => some d
  | none =>
    match matchDateLine v with
    | some (dd, mm, some ys) => mkDateISO (expandYear ys) mm dd
    | some (dd, mm, none) => mkDateISO now.year mm dd
    | none => none

/-- The record's date: `new Date()` when the resolved value is falsy, else
the normalized value. -/
def recordDate (now : YMD) (r : Record) : Option YMD :=
  let v := lookupS r (findField r dateAliases)
  if v = "" then some now else normalizeDate now v

def recordDescription (r : Record) : String :=
  jsOr (lookupS r (findField r descAliases)) "Unknown transaction"

/-- The type-column credit test: contains "credit", contains "c", or equals "cr". -/
def typeSaysCredit (r : Record) : Bool :=
  let v := lookupS r (findField r typeAliases)
  if v = "" then false
  else
    let t := lowerS v
    containsS t "credit" || containsS t "c" || t == "cr"

/-- The description keyword scan for credit. -/
def descSaysCredit (r : Record) : Bool :=
  let d := lowerS (recordDescription r)
  containsS d "payment" || containsS d "refund" || containsS d "credit" || containsS d "deposit"

/-- The resolved amount column, cleaned and parsed (`|| 0` maps NaN to 0). -/
def recordBaseAmount (r : Record) : ℚ :=
  let v := lookupS r (findField r amountAliases)
  if v = "" then 0 else (jsParseFloat (cleanAmount v)).getD 0

/-- `record[k] && Number.parseFloat(record[k]) > 0` with the parsed value. -/
def posParse (v : String) : Option ℚ :=
  if v = "" then none
  else
    match jsParseFloat v with
    | some q => if 0 < q then some q else none
    | none => none

/-- The credit/amount precedence chain: type column, then description
keywords, then the literal "Deposits" column, then the literal
"Withdrawals" column (later rules overwrite earlier ones). -/
def recordCreditAndAmount (r : Record) : Bool × ℚ :=
  let p1 := (typeSaysCredit r || descSaysCredit r, recordBaseAmount r)
  let p2 := match posParse (lookupS r "Deposits") with
    | some q => (true, q)
    | none => p1
  match posParse (lookupS r "Withdrawals") with
  | some q => (false, q)
  | none => p2

def recordIsCredit (r : Record) : Bool := (recordCreditAndAmount r).1

/-- `finalAmount = isCredit ? Math.abs(amount) : -Math.abs(amount)`. -/
def recordFinalAmount (r : Record) : ℚ :=
  let p := recordCreditAndAmount r
  if p.1 then qabs p.2 else -(qabs p.2)

/-- Account id of a row: account column (via the field resolver), else the
first value, else the already-determined account identifier. -/
def recordAccountId (acct : String) (r : Record) : String :=
  jsOr (jsOr (lookupS r (findField r accountAliases)) (firstValS r)) acct

def mkTxId (nowMs : Nat) : String := "tx-" ++ toString nowMs

def mkStatementId (nowMs : Nat) : String := "statement-" ++ toString nowMs

/-! ## Transactions -/

structure Transaction where
  id : Option String
  date : YMD
  description : String
  amount : ℚ
  categoryId : Option String
  accountId : String
  statementId : Option String
deriving Repr, DecidableEq

def mkCsvTx (nowMs : Nat) (acct : String) (r : Record) (d : YMD) : Transaction :=
  { id := some (mkTxId nowMs)
    date := d
    description := recordDescription r
    amount := recordFinalAmount r
    categoryId := none
    accountId := recordAccountId acct r
    statementId := some (mkStatementId nowMs) }

/-- Map one CSV record to a transaction; `Except.error ()` models the
`RangeError` thrown by `toISOString()` when the date is invalid. -/
def mapRecord (now : YMD) (nowMs : Nat) (acct : String) (r : Record) : Except Unit Transaction :=
  match recordDate now r with
  | none => Except.error ()
  | some d => Except.ok (mkCsvTx nowMs acct r d)

/-- Collect a list of possibly-throwing computations: the first throw aborts
the whole batch (JS `Array.prototype.map` semantics under exceptions). -/
def collectEx {α : Type} : List (Except Unit α) → Except Unit (List α)
  | [] => Except.ok []
  | Except.error e :: _ => Except.error e
  | Except.ok x :: rest => (collectEx rest).map (fun l => x :: l)

/-- The CSV branch of `parseStatement`: map every record, then drop rows
whose final amount is zero (the NaN part of the filter cannot fire, see the
header comment). -/
def csvBranch (now : YMD) (nowMs : Nat) (acct : String) (lines : List String) :
    Except Unit (List Transaction) :=
  (collectEx ((csvRecords true lines).map (mapRecord now nowMs acct))).map
    (fun txs => txs.filter (fun tx => decide (tx.amount ≠ 0)))

/-! ## The plain-text line-scanner fallback -/

/-- The fallback's date construction from a matched (day, month, optional
year digits) triple. -/
def fallbackDate (now : YMD) (dmy : Nat × Nat × Option (List Char)) : Option YMD :=
  match dmy.2.2 with
  | some ys => mkDateISO (expandYear ys) dmy.2.1 dmy.1
  | none => mkDateISO now.year dmy.2.1 dmy.1

def fallbackCredit (description : String) : Bool :=
  let d := lowerS description
  containsS d "cr" || containsS d "credit" || containsS d "payment" ||
    containsS d "refund" || containsS d "deposit"

def mkFallbackTx (nowMs : Nat) (acct : String) (d : YMD) (descLine : String) (astr : String) :
    Transaction :=
  let amount := (jsParseFloat (stripCommas astr)).getD 0
  let description := jsOr (jsTrim descLine) "Unknown transaction"
  { id := some (mkTxId nowMs)
    date := d
    description := description
    amount := if fallbackCredit description then qabs amount else -(qabs amount)
    categoryId := none
    accountId := acct
    statementId := some (mkStatementId nowMs) }

/-- One iteration of the fallback's `forEach`: skip account-number lines,
then on a date token use line `i+1` as description and line `i+2` as the
amount source.  `some (Except.error ())` models the `toISOString()` throw
for a regex-matched but invalid calendar date. -/
def lineScan (now : YMD) (nowMs : Nat) (acct : String) (lines : List String) (i : Nat) :
    Option (Except Unit Transaction) :=
  if hasRun8 (lines.getD i "") then none
  else
    match matchDateLine (lines.getD i "") with
    | none => none
    | some dmy =>
      match matchAmountTok (lines.getD (i + 2) "") with
      | none => none
      | some astr =>
        match fallbackDate now dmy with
        | none => some (Except.error ())
        | some d => some (Except.ok (mkFallbackTx nowMs acct d (lines.getD (i + 1) "") astr))

def plainTextFallback (now : YMD) (nowMs : Nat) (acct : String) (lines : List String) :
    Except Unit (List Transaction) :=
  collectEx ((List.range lines.length).filterMap (lineScan now nowMs acct lines))

/-! ## `parseStatement` -/

/-- `accountFromCSV || fileName || "unknown-account"`. -/
def accountIdentifier (content fileName : String) : String :=
  jsOr (jsOr ((getAccountNumberFromCSV content).getD "") fileName) "unknown-account"

/-- The structured parser: try the CSV branch; if it throws, run the
plain-text line scanner; if that throws too, the outer catch returns `[]`. -/
def parseStatement (now : YMD) (nowMs : Nat) (csvContent : String) (fileName : String) :
    List Transaction :=
  if csvContent = "" then []
  else
    match csvBranch now nowMs (accountIdentifier csvContent fileName) (splitLines csvContent) with
    | Except.ok txs => txs
    | Except.error _ =>
      match plainTextFallback now nowMs (accountIdentifier csvContent fileName)
          (splitLines csvContent) with
      | Except.ok txs => txs
      | Except.error _ => []

/-! ## Assisted extraction (Gemini) -/

/-- A JSON value in an extracted item's `amount` field. -/
inductive JVal where
  | num (q : ℚ)
  | str (s : String)
  | other
deriving Repr, DecidableEq

/-- One item of the JSON array extracted from the model response. -/
structure GItem where
  date : Option String
  description : Option String
  amount : JVal
  accountNumber : Option String
deriving Repr, DecidableEq

/-- `isNaN` on a transaction amount: rationals carry no NaN, and every NaN
produced by `parseFloat` in this path was already defaulted to 0 (`|| 0`). -/
def jsIsNaN (_ : ℚ) : Bool := false

def convertGItem (now : YMD) (hint : Option String) (item : GItem) : Transaction :=
  let d := match item.date with
    | none => now
    | some s => (jsDateParse s).getD now
  let amount := match item.amount with
    | JVal.num q => q
    | JVal.str s => (jsParseFloat (cleanAmount s)).getD 0
    | JVal.other => 0
  let accountId := jsTrim (jsOr (item.accountNumber.getD "") (jsOr (hint.getD "") "unknown-account"))
  { id := none
    date := d
    description := jsOr (item.description.getD "") "Unknown transaction"
    amount := amount
    categoryId := none
    accountId := accountId
    statementId := none }

/-- A raw element of the extracted JSON array: a JSON object, or the JSON
literal `null` (which `JSON.parse` accepts inside an array). -/
inductive GExtracted where
  | jnull
  | obj (item : GItem)
deriving Repr, DecidableEq

/-- One step of the item `.map`: on a null element, `item.date` throws
inside the per-item try (caught, date defaults to now), but
`typeof item.amount` then throws a `TypeError` with no per-item catch —
modelled as `Except.error ()`. -/
def convertGExtracted (now : YMD) (hint : Option String) :
    GExtracted → Except Unit Transaction
  | GExtracted.jnull => Except.error ()
  | GExtracted.obj item => Except.ok (convertGItem now hint item)

/-- The item-mapping, NaN filter and enclosing catch of
`parseStatementWithGemini`: a throw anywhere in the `.map` escapes to the
function's outer catch, which returns `[]` for the whole batch. -/
def geminiConvert (now : YMD) (hint : Option String) (items : List GExtracted) :
    List Transaction :=
  match collectEx (items.map (convertGExtracted now hint)) with
  | Except.error _ => []
  | Except.ok txs => txs.filter (fun tx => !jsIsNaN tx.amount)

/-- First 12-digit account number found in the content (the pre-scan hint). -/
def firstHint (content : String) : Option String :=
  ((splitLines content).filterMap
    (fun l => (runFind (fun n => n == 12) false [] l.data).map String.mk)).head?

/-- `parseStatementWithGemini` with the network response abstracted:
`none` is any failure (all collapse to an empty result). -/
def parseStatementWithGemini (now : YMD) (resp : Option (List GExtracted)) (content : String) :
    List Transaction :=
  match resp with
  | none => []
  | some items => geminiConvert now (firstHint content) items

/-! ## The orchestrator -/

structure StatementParseResult where
  success : Bool
  transactionsCount : Option Nat
  error : Option String
deriving Repr, DecidableEq

/-- Strip a trailing `.ext` (the `/\.[^/.]+$/` replace). -/
def stripExt (cs : List Char) : List Char :=
  let rev := cs.reverse
  let ext := rev.takeWhile (fun c => !(c == '.') && !(c == '/'))
  match rev.dropWhile (fun c => !(c == '.') && !(c == '/')) with
  | '.' :: more => if ext.isEmpty then cs else more.reverse
  | _ => cs

def sanitizeChar (c : Char) : Char :=
  if (decide ('a' ≤ c) && decide (c ≤ 'z')) || isDig c || c == '-' then c else '-'

/-- `file.name.toLowerCase().replace(extension).replace(non-alphanumerics)`. -/
def sanitizeFileName (name : String) : String :=
  String.mk ((stripExt (name.data.map Char.toLower)).map sanitizeChar)

/-- The per-transaction stamping step of `processStatement`: replace the
"unknown-account" sentinel with the sanitized filename and assign the shared
batch statement id. -/
def stampTransactions (nowMs : Nat) (fileName : String) (ts : List Transaction) :
    List Transaction :=
  ts.map (fun t =>
    { t with
      accountId := if t.accountId = "unknown-account" then fileName else t.accountId
      statementId := some (mkStatementId nowMs) })

/-- Choose the transaction source: no API key (or any Gemini failure or an
empty Gemini result) falls back to the structured parser. -/
def pickParsed (now : YMD) (nowMs : Nat) (apiKey : String) (resp : Option (List GExtracted))
    (content fileName : String) : List Transaction :=
  if apiKey = "" then parseStatement now nowMs content fileName
  else
    match parseStatementWithGemini now resp content with
    | [] => parseStatement now nowMs content fileName
    | t :: ts => t :: ts

/-- `processStatement`: reject empty content, sanitize the filename, pick a
parse, stamp, and report.  The persisted list is returned alongside the
caller-visible result. -/
def processStatement (now : YMD) (nowMs : Nat) (apiKey : String) (resp : Option (List GExtracted))
    (fileContent origFileName : String) : StatementParseResult × List Transaction :=
  if fileContent = "" then
    ({ success := false, transactionsCount := none, error := some "Empty file content" }, [])
  else
    ({ success := true
       transactionsCount := some (stampTransactions nowMs (sanitizeFileName origFileName)
         (pickParsed now nowMs apiKey resp fileContent (sanitizeFileName origFileName))).length
       error := none },
     stampTransactions nowMs (sanitizeFileName origFileName)
       (pickParsed now nowMs apiKey resp fileContent (sanitizeFileName origFileName)))

/-! ## Helper lemmas -/

theorem jsOr_ne_of_ne {a b : String} (h : b ≠ "") : jsOr a b ≠ "" := by
  unfold jsOr
  split
  · exact h
  · next hne => exact hne

theorem jsOr_self (a : String) : jsOr a a = a := by
  unfold jsOr
  split <;> rfl

theorem qabs_nonneg (q : ℚ) : 0 ≤ qabs q := by
  unfold qabs
  split <;> linarith

theorem qabs_of_pos {q : ℚ} (h : 0 < q) : qabs q = q := by
  unfold qabs
  rw [if_neg (by linarith)]

theorem list_filter_true {α : Type} (l : List α) : l.filter (fun _ => true) = l := by
  induction l with
  | nil => rfl
  | cons a t ih => simp [List.filter, ih]

theorem collectEx_mem_ok {α : Type} :
    ∀ {l : List (Except Unit α)} {out : List α}, collectEx l = Except.ok out →
      ∀ {x : α}, Except.ok x ∈ l → x ∈ out := by
  intro l
  induction l with
  | nil => intro out _ x hx; cases hx
  | cons e t ih =>
    intro out h x hx
    cases e with
    | error u => simp [collectEx] at h
    | ok y =>
      cases hct : collectEx t with
      | error u =>
        unfold collectEx at h
        rw [hct] at h
        simp [Except.map] at h
      | ok l0 =>
        unfold collectEx at h
        rw [hct] at h
        simp only [Except.map, Except.ok.injEq] at h
        subst h
        rcases List.mem_cons.1 hx with h1 | h1
        · injection h1 with h1
          exact h1 ▸ List.mem_cons_self _ _
        · exact List.mem_cons_of_mem _ (ih hct h1)

theorem collectEx_ok_mem {α : Type} :
    ∀ {l : List (Except Unit α)} {out : List α}, collectEx l = Except.ok out →
      ∀ {x : α}, x ∈ out → Except.ok x ∈ l := by
  intro l
  induction l with
  | nil =>
    intro out h x hx
    simp only [collectEx, Except.ok.injEq] at h
    subst h
    cases hx
  | cons e t ih =>
    intro out h x hx
    cases e with
    | error u => simp [collectEx] at h
    | ok y =>
      cases hct : collectEx t with
      | error u =>
        unfold collectEx at h
        rw [hct] at h
        simp [Except.map] at h
      | ok l0 =>
        unfold collectEx at h
        rw [hct] at h
        simp only [Except.map, Except.ok.injEq] at h
        subst h
        rcases List.mem_cons.1 hx with h1 | h1
        · exact h1 ▸ List.mem_cons_self _ _
        · exact List.mem_cons_of_mem _ (ih hct h1)

theorem collectEx_map_ok {α β : Type} (f : α → β) :
    ∀ l : List α, collectEx (l.map (fun x => Except.ok (f x))) = Except.ok (l.map f) := by
  intro l
  induction l with
  | nil => rfl
  | cons a t ih =>
    show (collectEx (t.map (fun x => Except.ok (f x)))).map (fun l => f a :: l) = _
    rw [ih]
    rfl

theorem collectEx_error_of_mem {α : Type} :
    ∀ {l : List (Except Unit α)}, Except.error () ∈ l → collectEx l = Except.error () := by
  intro l
  induction l with
  | nil => intro h; cases h
  | cons e t ih =>
    intro h
    cases e with
    | error u => cases u; rfl
    | ok y =>
      rcases List.mem_cons.1 h with h1 | h1
      · exact Except.noConfusion h1
      · show (collectEx t).map (fun l => y :: l) = Except.error ()
        rw [ih h1]
        rfl

theorem mapRecord_ok {now : YMD} {nowMs : Nat} {acct : String} {r : Record} {tx : Transaction}
    (h : mapRecord now nowMs acct r = Except.ok tx) :
    ∃ d, recordDate now r = some d ∧ tx = mkCsvTx nowMs acct r d := by
  unfold mapRecord at h
  cases hd : recordDate now r with
  | none => rw [hd] at h; simp at h
  | some d =>
    rw [hd] at h
    simp only [Except.ok.injEq] at h
    exact ⟨d, rfl, h.symm⟩

theorem findField_no_alias {r : Record} {names : List String}
    (h : ∀ a ∈ names, r.lookup a = none) : findField r names = firstKeyS r := by
  unfold findField
  have hn : names.find? (fun n => (r.lookup n).isSome) = none := by
    apply List.find?_eq_none.2
    intro a ha
    simp [h a ha]
  rw [hn]

theorem lookupS_firstKey (r : Record) : lookupS r (firstKeyS r) = firstValS r := by
  cases r with
  | nil => rfl
  | cons p t =>
    cases p with
    | mk k v => simp [lookupS, firstKeyS, firstValS, List.lookup]

theorem lineScan_ok {now : YMD} {nowMs : Nat} {acct : String} {lines : List String} {i : Nat}
    {tx : Transaction} (h : lineScan now nowMs acct lines i = some (Except.ok tx)) :
    ∃ d astr, tx = mkFallbackTx nowMs acct d (lines.getD (i + 1) "") astr := by
  unfold lineScan at h
  by_cases h8 : hasRun8 (lines.getD i "") = true
  · rw [if_pos h8] at h; simp at h
  · rw [if_neg h8] at h
    cases hdm : matchDateLine (lines.getD i "") with
    | none => rw [hdm] at h; simp at h
    | some dmy =>
      rw [hdm] at h
      cases ha : matchAmountTok (lines.getD (i + 2) "") with
      | none => rw [ha] at h; simp at h
      | some astr =>
        rw [ha] at h
        dsimp only at h
        cases hd : fallbackDate now dmy with
        | none => rw [hd] at h; simp at h
        | some d =>
          rw [hd] at h
          simp only [Option.some.injEq, Except.ok.injEq] at h
          exact ⟨_, _, h.symm⟩

theorem recordDescription_ne (r : Record) : recordDescription r ≠ "" := by
  unfold recordDescription
  exact jsOr_ne_of_ne (by decide)

theorem mkFallbackTx_description (nowMs : Nat) (acct : String) (d : YMD) (descLine astr : String) :
    (mkFallbackTx nowMs acct d descLine astr).description ≠ "" := by
  show jsOr (jsTrim descLine) "Unknown transaction" ≠ ""
  exact jsOr_ne_of_ne (by decide)

theorem csvBranch_ok {now : YMD} {nowMs : Nat} {acct : String} {lines : List String}
    {txs : List Transaction} (h : csvBranch now nowMs acct lines = Except.ok txs) :
    ∃ l0, collectEx ((csvRecords true lines).map (mapRecord now nowMs acct)) = Except.ok l0 ∧
      txs = l0.filter (fun tx => decide (tx.amount ≠ 0)) := by
  unfold csvBranch at h
  cases hce : collectEx ((csvRecords true lines).map (mapRecord now nowMs acct)) with
  | error u => rw [hce] at h; simp [Except.map] at h
  | ok l0 =>
    rw [hce] at h
    simp only [Except.map, Except.ok.injEq] at h
    exact ⟨l0, rfl, h.symm⟩

/-- Every transaction of `parseStatement` is either a CSV-branch row or a
fallback-scanner row; in both cases the parser itself fills every field,
including `id` and a provisional `statementId`. -/
theorem parse_fields {now : YMD} {nowMs : Nat} {content fileName : String} {tx : Transaction}
    (h : tx ∈ parseStatement now nowMs content fileName) :
    tx.categoryId = none ∧ tx.description ≠ "" ∧ tx.id = some (mkTxId nowMs) ∧
      tx.statementId = some (mkStatementId nowMs) := by
  unfold parseStatement at h
  by_cases hc : content = ""
  · rw [if_pos hc] at h; cases h
  · rw [if_neg hc] at h
    cases hcb : csvBranch now nowMs (accountIdentifier content fileName) (splitLines content) with
    | ok txs =>
      rw [hcb] at h
      dsimp only at h
      obtain ⟨l0, hce, heq⟩ := csvBranch_ok hcb
      subst heq
      have h1 : tx ∈ l0 := (List.mem_filter.1 h).1
      have h2 := collectEx_ok_mem hce h1
      obtain ⟨r, _, hmr⟩ := List.mem_map.1 h2
      obtain ⟨d, _, heq2⟩ := mapRecord_ok hmr
      subst heq2
      exact ⟨rfl, recordDescription_ne r, rfl, rfl⟩
    | error u =>
      rw [hcb] at h
      dsimp only at h
      cases hpf : plainTextFallback now nowMs (accountIdentifier content fileName)
          (splitLines content) with
      | error v => rw [hpf] at h; cases h
      | ok txs =>
        rw [hpf] at h
        dsimp only at h
        unfold plainTextFallback at hpf
        have h2 := collectEx_ok_mem hpf h
        obtain ⟨i, _, hls⟩ := List.mem_filterMap.1 h2
        obtain ⟨d, astr, heq3⟩ := lineScan_ok hls
        subst heq3
        exact ⟨rfl, mkFallbackTx_description _ _ _ _ _, rfl, rfl⟩

/-- Every transaction of the assisted-extraction conversion has null id,
null statementId, null categoryId and a non-empty description. -/
theorem gemini_fields {now : YMD} {hint : Option String} {items : List GExtracted}
    {tx : Transaction} (h : tx ∈ geminiConvert now hint items) :
    tx.categoryId = none ∧ tx.description ≠ "" ∧ tx.id = none ∧ tx.statementId = none := by
  unfold geminiConvert at h
  cases hce : collectEx (items.map (convertGExtracted now hint)) with
  | error u => rw [hce] at h; cases h
  | ok l0 =>
    rw [hce] at h
    dsimp only at h
    have h1 : tx ∈ l0 := (List.mem_filter.1 h).1
    have h2 := collectEx_ok_mem hce h1
    obtain ⟨e, _, hconv⟩ := List.mem_map.1 h2
    cases e with
    | jnull => simp [convertGExtracted] at hconv
    | obj item =>
      simp only [convertGExtracted, Except.ok.injEq] at hconv
      subst hconv
      refine ⟨rfl, ?_, rfl, rfl⟩
      show jsOr (item.description.getD "") "Unknown transaction" ≠ ""
      exact jsOr_ne_of_ne (by decide)

/-- A transaction picked by the orchestrator comes from the structured
parser or from the assisted-extraction conversion. -/
theorem mem_pickParsed {now : YMD} {nowMs : Nat} {apiKey : String}
    {resp : Option (List GExtracted)}
    {content fileName : String} {tx : Transaction}
    (h : tx ∈ pickParsed now nowMs apiKey resp content fileName) :
    tx ∈ parseStatement now nowMs content fileName ∨
      ∃ items, resp = some items ∧ tx ∈ geminiConvert now (firstHint content) items := by
  unfold pickParsed at h
  by_cases hk : apiKey = ""
  · rw [if_pos hk] at h; exact Or.inl h
  · rw [if_neg hk] at h
    cases hg : parseStatementWithGemini now resp content with
    | nil => rw [hg] at h; exact Or.inl h
    | cons t ts =>
      rw [hg] at h
      dsimp only at h
      unfold parseStatementWithGemini at hg
      cases resp with
      | none => simp at hg
      | some items =>
        right
        dsimp only at hg
        exact ⟨items, rfl, by rw [hg]; exact h⟩

/-! ## Claim C1: account fallback chain -/

/-- Claim C1, counterexample.  For the CSV
`"Date,Description,Amount\n01/02/24,GROCERY STORE,45.00"` — which has none
of the known account-column aliases and no detectable embedded account
number — and the filename `"My Chase-Statement_2024.csv"`, the pipeline
emits a transaction whose accountId is the first column's value
`"01/02/24"`, not the sanitized filename `"my-chase-statement-2024"`
required by the claim. -/
theorem c1_counterexample :
    sanitizeFileName "My Chase-Statement_2024.csv" = "my-chase-statement-2024" ∧
    getAccountNumberFromCSV "Date,Description,Amount\n01/02/24,GROCERY STORE,45.00" = none ∧
    ((processStatement ⟨2025, 1, 1⟩ 0 "" none
        "Date,Description,Amount\n01/02/24,GROCERY STORE,45.00"
        "My Chase-Statement_2024.csv").2.map (fun t => t.accountId)) = ["01/02/24"] ∧
    "01/02/24" ≠ "my-chase-statement-2024" := by
  exact ⟨by decide, by decide, by decide, by decide⟩

/-- Claim C1, amended.  When none of the known account-column aliases is a
key of the record, the field resolver falls back to the record's first
column, so the emitted accountId is the record's first value when that
value is non-empty, and only an empty first value lets the
account-number/filename fallback (`accountIdentifier`) through. -/
theorem c1_amended {now : YMD} {nowMs : Nat} {acct : String} {r : Record} {tx : Transaction}
    (hal : ∀ a ∈ accountAliases, r.lookup a = none)
    (hok : mapRecord now nowMs acct r = Except.ok tx) :
    tx.accountId = jsOr (firstValS r) acct := by
  obtain ⟨d, _, heq⟩ := mapRecord_ok hok
  subst heq
  show recordAccountId acct r = jsOr (firstValS r) acct
  unfold recordAccountId
  rw [findField_no_alias hal, lookupS_firstKey, jsOr_self]

/-- The transaction the structured parser emits for the C1/C2 witness row. -/
def txW1 (nowMs : Nat) : Transaction :=
  { id := some (mkTxId nowMs)
    date := ⟨2024, 1, 2⟩
    description := "X"
    amount := -45
    categoryId := none
    accountId := "01/02/24"
    statementId := some (mkStatementId nowMs) }

instance {ε α : Type} [DecidableEq ε] [DecidableEq α] : DecidableEq (Except ε α) := fun a b =>
  match a, b with
  | Except.ok x, Except.ok y =>
    if h : x = y then isTrue (h ▸ rfl) else isFalse (fun hc => h (Except.ok.inj hc))
  | Except.error x, Except.error y =>
    if h : x = y then isTrue (h ▸ rfl) else isFalse (fun hc => h (Except.error.inj hc))
  | Except.ok _, Except.error _ => isFalse Except.noConfusion
  | Except.error _, Except.ok _ => isFalse Except.noConfusion

/-- Claim C1, witness for the amended theorem. -/
theorem c1_witness :
    mapRecord ⟨2025, 1, 1⟩ 0 "my-chase-statement-2024"
        [("Date", "01/02/24"), ("Description", "X"), ("Amount", "45.00")] =
      Except.ok (txW1 0) ∧
    (txW1 0).accountId =
      jsOr (firstValS [("Date", "01/02/24"), ("Description", "X"), ("Amount", "45.00")])
        "my-chase-statement-2024" :=
  ⟨by decide,
    @c1_amended ⟨2025, 1, 1⟩ 0 "my-chase-statement-2024"
      [("Date", "01/02/24"), ("Description", "X"), ("Amount", "45.00")] (txW1 0)
      (by decide) (by decide)⟩

/-! ## Claim C2: no zero/NaN leakage from the structured parser -/

/-- Claim C2, counterexample.  A CSV whose first record has an unparseable
date aborts the CSV branch (`toISOString` throws on the Invalid Date), and
the plain-text line-scanner fallback then emits a transaction whose amount
is exactly 0 (the amount line "0.00"), so a zero amount does leak from
`parseStatement`. -/
theorem c2_counterexample :
    (parseStatement ⟨2025, 1, 1⟩ 0
        "Date,Description,Amount\nnotadate,X,5.00\n01/02/24\nshop\n0.00" "f").map
        (fun t => t.amount) = [0] := by
  decide

/-- Claim C2, amended.  Restricted to the CSV branch (the source's
`records.map(...).filter(...)` path), the claim holds: whenever the CSV
branch completes without throwing, `parseStatement` returns exactly its
rows and every returned amount is non-zero (amounts are never NaN in the
model, see the header comment). -/
theorem c2_amended {now : YMD} {nowMs : Nat} {content fileName : String}
    {txs : List Transaction} (hne : content ≠ "")
    (h : csvBranch now nowMs (accountIdentifier content fileName) (splitLines content) =
      Except.ok txs) :
    parseStatement now nowMs content fileName = txs ∧ ∀ tx ∈ txs, tx.amount ≠ 0 := by
  constructor
  · unfold parseStatement
    rw [if_neg hne, h]
  · intro tx htx
    obtain ⟨l0, _, heq⟩ := csvBranch_ok h
    subst heq
    have := (List.mem_filter.1 htx).2
    exact of_decide_eq_true this

/-- Claim C2, witness for the amended theorem. -/
theorem c2_witness :
    parseStatement ⟨2025, 1, 1⟩ 5 "Date,Description,Amount\n01/02/24,X,45.00" "f" = [txW1 5] ∧
    ∀ tx ∈ [txW1 5], tx.amount ≠ 0 :=
  c2_amended (by decide) (by decide)

/-! ## Claim C3: pipeline emission invariant -/

/-- Claim C3, counterexample.  The structured parser itself assigns `id` and
a (provisional) `statementId` to every row it emits, so id/statementId
assignment is not exclusive to the orchestrator. -/
theorem c3_counterexample :
    (parseStatement ⟨2025, 1, 1⟩ 5 "Date,Description,Amount\n01/02/24,X,45.00" "f").map
        (fun t => (t.id, t.statementId)) = [(some "tx-5", some "statement-5")] ∧
    (some "statement-5" : Option String) ≠ none := by
  exact ⟨by decide, by decide⟩

/-- Claim C3, amended.  Every transaction from either parsing path has
`categoryId = none`, a non-empty description, and total date/amount/account
fields (guaranteed by their types in the model); the assisted-extraction
conversion assigns neither `id` nor `statementId`; but the structured
parser assigns both `id` and a provisional `statementId` itself, and the
orchestrator then overwrites `statementId` with the shared batch id on
every persisted transaction. -/
theorem c3_amended :
    (∀ (now : YMD) (nowMs : Nat) (content fileName : String) (tx : Transaction),
      tx ∈ parseStatement now nowMs content fileName →
        tx.categoryId = none ∧ tx.description ≠ "" ∧ tx.id = some (mkTxId nowMs) ∧
          tx.statementId = some (mkStatementId nowMs)) ∧
    (∀ (now : YMD) (hint : Option String) (items : List GExtracted) (tx : Transaction),
      tx ∈ geminiConvert now hint items →
        tx.categoryId = none ∧ tx.description ≠ "" ∧ tx.id = none ∧ tx.statementId = none) ∧
    (∀ (now : YMD) (nowMs : Nat) (apiKey : String) (resp : Option (List GExtracted))
        (content origName : String) (tx : Transaction),
      tx ∈ (processStatement now nowMs apiKey resp content origName).2 →
        tx.statementId = some (mkStatementId nowMs) ∧ tx.categoryId = none) := by
  refine ⟨fun now nowMs content fileName tx h => parse_fields h,
    fun now hint items tx h => gemini_fields h, ?_⟩
  intro now nowMs apiKey resp content origName tx h
  unfold processStatement at h
  by_cases hc : content = ""
  · rw [if_pos hc] at h; cases h
  · rw [if_neg hc] at h
    dsimp only at h
    obtain ⟨t0, ht0, heq⟩ := List.mem_map.1 h
    subst heq
    refine ⟨rfl, ?_⟩
    show t0.categoryId = none
    rcases mem_pickParsed ht0 with h1 | ⟨items, _, h2⟩
    · exact (parse_fields h1).1
    · exact (gemini_fields h2).1

/-- Claim C3, witness for the amended theorem (first component at a
concrete parse). -/
theorem c3_witness :
    txW1 7 ∈ parseStatement ⟨2025, 1, 1⟩ 7 "Date,Description,Amount\n01/02/24,X,45.00" "f" ∧
    ((txW1 7).categoryId = none ∧ (txW1 7).description ≠ "" ∧
      (txW1 7).id = some (mkTxId 7) ∧ (txW1 7).statementId = some (mkStatementId 7)) :=
  ⟨by decide,
    c3_amended.1 ⟨2025, 1, 1⟩ 7 "Date,Description,Amount\n01/02/24,X,45.00" "f" (txW1 7)
      (by decide)⟩

/-! ## Claim C4: end-to-end scenario -/

/-- The end-to-end scenario CSV of §8 of the specification. -/
def c4csv : String :=
  "Date,Description,Amount,Type\n01/02/24,GROCERY STORE,45.00,debit\n02/02/24,SALARY,250000.00,credit"

/-- Claim C4, counterexample.  `new Date("01/02/24")` succeeds directly
under the JS month/day/year reading, so the first transaction is dated
2024-01-02 (January 2), not 2024-02-01 as the claim's DD/MM/YY convention
requires. -/
theorem c4_counterexample :
    ((processStatement ⟨2025, 1, 1⟩ 0 "" none c4csv "statement.csv").2.map (fun t => t.date)) =
      [⟨2024, 1, 2⟩, ⟨2024, 2, 2⟩] ∧
    (⟨2024, 1, 2⟩ : YMD) ≠ ⟨2024, 2, 1⟩ := by
  exact ⟨by decide, by decide⟩

/-- Claim C4, amended.  With no assisted extraction available,
`processStatement` on the scenario CSV yields exactly two transactions with
amounts -45.00 and +250000.00 in that order, dated 2024-01-02 (direct JS
MM/DD/YY parse of "01/02/24") and 2024-02-02 respectively, each with
`categoryId` null and both carrying one equal shared `statementId`. -/
theorem c4_amended (now : YMD) (nowMs : Nat) :
    ((processStatement now nowMs "" none c4csv "statement.csv").2.map
        (fun t => (t.amount, t.date, t.categoryId))) =
      [(-45, ⟨2024, 1, 2⟩, none), (250000, ⟨2024, 2, 2⟩, none)] ∧
    ((processStatement now nowMs "" none c4csv "statement.csv").2.map (fun t => t.statementId)) =
      [some (mkStatementId nowMs), some (mkStatementId nowMs)] ∧
    (processStatement now nowMs "" none c4csv "statement.csv").1 =
      { success := true, transactionsCount := some 2, error := none } := by
  exact ⟨rfl, rfl, rfl⟩

/-! ## Claim C5: Deposits/Withdrawals precedence -/

/-- Claim C5.  (1) If the "Deposits" column is non-empty and parses to a
positive number while "Withdrawals" is empty or absent, the row is forced
credit with final amount exactly the Deposits value, regardless of any
type column.  (2) If both "Deposits" and "Withdrawals" are non-empty and
parse to positive numbers, the later-applied Withdrawals rule wins: the
row is a debit with final amount minus the Withdrawals value. -/
theorem c5_theorem :
    (∀ (r : Record) (dv : ℚ), lookupS r "Deposits" ≠ "" →
      jsParseFloat (lookupS r "Deposits") = some dv → 0 < dv →
      lookupS r "Withdrawals" = "" →
      recordIsCredit r = true ∧ recordFinalAmount r = dv) ∧
    (∀ (r : Record) (dv wv : ℚ), lookupS r "Deposits" ≠ "" →
      jsParseFloat (lookupS r "Deposits") = some dv → 0 < dv →
      lookupS r "Withdrawals" ≠ "" →
      jsParseFloat (lookupS r "Withdrawals") = some wv → 0 < wv →
      recordIsCredit r = false ∧ recordFinalAmount r = -wv) := by
  constructor
  · intro r dv h1 h2 h3 h4
    have hpd : posParse (lookupS r "Deposits") = some dv := by
      unfold posParse
      rw [if_neg h1, h2]
      dsimp only
      rw [if_pos h3]
    have hpw : posParse (lookupS r "Withdrawals") = none := by
      unfold posParse
      rw [if_pos h4]
    have hca : recordCreditAndAmount r = (true, dv) := by
      unfold recordCreditAndAmount
      rw [hpd, hpw]
    constructor
    · unfold recordIsCredit
      rw [hca]
    · unfold recordFinalAmount
      rw [hca]
      exact qabs_of_pos h3
  · intro r dv wv h1 h2 h3 h4 h5 h6
    have hpw : posParse (lookupS r "Withdrawals") = some wv := by
      unfold posParse
      rw [if_neg h4, h5]
      dsimp only
      rw [if_pos h6]
    have hca : recordCreditAndAmount r = (false, wv) := by
      unfold recordCreditAndAmount
      rw [hpw]
    constructor
    · unfold recordIsCredit
      rw [hca]
    · unfold recordFinalAmount
      rw [hca]
      show -(qabs wv) = -wv
      rw [qabs_of_pos h6]

/-- Claim C5, witness: both parts at concrete records. -/
theorem c5_witness :
    (recordIsCredit [("Deposits", "1000.00"), ("Withdrawals", ""), ("type", "debit")] = true ∧
      recordFinalAmount [("Deposits", "1000.00"), ("Withdrawals", ""), ("type", "debit")] = 1000) ∧
    (recordIsCredit [("Deposits", "1000.00"), ("Withdrawals", "200.00")] = false ∧
      recordFinalAmount [("Deposits", "1000.00"), ("Withdrawals", "200.00")] = -200) :=
  ⟨c5_theorem.1 _ 1000 (by decide) (by decide) (by decide) (by decide),
    c5_theorem.2 _ 1000 200 (by decide) (by decide) (by decide) (by decide) (by decide) (by decide)⟩

/-! ## Claim C6: sign invariant -/

/-- Claim C6.  For every CSV row that the structured parser emits with a
non-zero amount (the filter keeps exactly those), the amount is positive
iff the precedence chain (type column, then description keywords, then
Deposits, then Withdrawals — last applicable rule wins) classified the row
as credit, since the final amount is `+|amount|` when credit and
`-|amount|` otherwise. -/
theorem recordFinalAmount_eq (r : Record) :
    recordFinalAmount r =
      if recordIsCredit r then qabs (recordCreditAndAmount r).2
      else -(qabs (recordCreditAndAmount r).2) := rfl

theorem c6_theorem {now : YMD} {nowMs : Nat} {acct : String} {r : Record} {tx : Transaction}
    (h : mapRecord now nowMs acct r = Except.ok tx) (hz : tx.amount ≠ 0) :
    0 < tx.amount ↔ recordIsCredit r = true := by
  obtain ⟨d, _, heq⟩ := mapRecord_ok h
  subst heq
  show 0 < recordFinalAmount r ↔ recordIsCredit r = true
  have hz' : recordFinalAmount r ≠ 0 := hz
  rw [recordFinalAmount_eq] at hz' ⊢
  have h0 := qabs_nonneg (recordCreditAndAmount r).2
  cases hc : recordIsCredit r with
  | true =>
    rw [hc] at hz'
    have hz'' : qabs (recordCreditAndAmount r).2 ≠ 0 := hz'
    constructor
    · intro _; rfl
    · intro _
      show (0 : ℚ) < qabs (recordCreditAndAmount r).2
      exact lt_of_le_of_ne h0 (Ne.symm hz'')
  | false =>
    rw [hc] at hz'
    have hz'' : -(qabs (recordCreditAndAmount r).2) ≠ 0 := hz'
    constructor
    · intro hpos
      exfalso
      have hpos' : (0 : ℚ) < -(qabs (recordCreditAndAmount r).2) := hpos
      linarith
    · intro hf
      exact (Bool.false_ne_true hf).elim

/-- Claim C6, witness: a concrete "cr" type-column row with positive final
amount. -/
theorem c6_witness :
    mapRecord ⟨2025, 1, 1⟩ 0 "acc" [("Date", "01/02/24"), ("Amount", "45.00"), ("type", "cr")] =
      Except.ok
        (mkCsvTx 0 "acc" [("Date", "01/02/24"), ("Amount", "45.00"), ("type", "cr")]
          ⟨2024, 1, 2⟩) ∧
    (0 < (mkCsvTx 0 "acc" [("Date", "01/02/24"), ("Amount", "45.00"), ("type", "cr")]
        ⟨2024, 1, 2⟩).amount ↔
      recordIsCredit [("Date", "01/02/24"), ("Amount", "45.00"), ("type", "cr")] = true) :=
  ⟨by decide,
    @c6_theorem ⟨2025, 1, 1⟩ 0 "acc" [("Date", "01/02/24"), ("Amount", "45.00"), ("type", "cr")]
      (mkCsvTx 0 "acc" [("Date", "01/02/24"), ("Amount", "45.00"), ("type", "cr")] ⟨2024, 1, 2⟩)
      (by decide) (by decide)⟩

/-! ## Claim C7: date defaulting -/

/-- Claim C7, evaluation.  (1) `"15/03/24"` normalizes to 2024-03-15 (direct
parse fails on month 15, the regex path expands the two-digit year).
(2) A `DD/MM` value with no year component gets the current calendar year.
(3) But a completely unparseable non-empty date value does NOT yield the
current date: it leaves an Invalid Date (`none`), whose serialization
throws and sends the entire CSV batch to the plain-text fallback, which
here finds nothing — the dead `catch (e) { date = new Date() }` in the
source documents the intended current-date default that never fires. -/
theorem c7_eval :
    (∀ now : YMD, normalizeDate now "15/03/24" = some ⟨2024, 3, 15⟩) ∧
    (∀ now : YMD, 1000 ≤ now.year → now.year ≤ 9999 →
      normalizeDate now "15/03" = some ⟨now.year, 3, 15⟩) ∧
    (∀ now : YMD, normalizeDate now "notadate" = none) ∧
    (∀ (now : YMD) (nowMs : Nat),
      parseStatement now nowMs "Date,Amount\nnotadate,45.00" "f" = []) := by
  refine ⟨fun now => rfl, ?_, fun now => rfl, fun now nowMs => rfl⟩
  intro now h1 h2
  show mkDateISO now.year 3 15 = some ⟨now.year, 3, 15⟩
  unfold mkDateISO
  rw [if_pos ⟨h1, h2⟩]
  unfold mkDate
  rw [if_pos]
  refine ⟨by norm_num, by norm_num, by norm_num, ?_⟩
  show 15 ≤ daysInMonth now.year 3
  unfold daysInMonth
  norm_num

/-- Claim C7, witness for the year-bound hypotheses of the second part. -/
theorem c7_witness :
    1000 ≤ (⟨2025, 6, 1⟩ : YMD).year ∧ (⟨2025, 6, 1⟩ : YMD).year ≤ 9999 ∧
    normalizeDate ⟨2025, 6, 1⟩ "15/03" = some ⟨2025, 3, 15⟩ :=
  ⟨by decide, by decide, c7_eval.2.1 ⟨2025, 6, 1⟩ (by decide) (by decide)⟩

/-! ## Claim C8: assisted-extraction total failure transparency -/

/-- Claim C8.  With no API credential the orchestrator takes the
structured-parser branch directly: the choice function ignores the network
response entirely (no network access can influence the result), the whole
orchestrator result is independent of the response, and the persisted list
is exactly the structured parser's output on the same content, modulo the
orchestrator's stamping step. -/
theorem c8_theorem :
    (∀ (now : YMD) (nowMs : Nat) (resp : Option (List GExtracted)) (content fileName : String),
      pickParsed now nowMs "" resp content fileName = parseStatement now nowMs content fileName) ∧
    (∀ (now : YMD) (nowMs : Nat) (resp resp' : Option (List GExtracted)) (content origName : String),
      processStatement now nowMs "" resp content origName =
        processStatement now nowMs "" resp' content origName) ∧
    (∀ (now : YMD) (nowMs : Nat) (resp : Option (List GExtracted)) (content origName : String),
      content ≠ "" →
      (processStatement now nowMs "" resp content origName).2 =
        stampTransactions nowMs (sanitizeFileName origName)
          (parseStatement now nowMs content (sanitizeFileName origName))) := by
  refine ⟨fun now nowMs resp content fileName => rfl,
    fun now nowMs resp resp' content origName => rfl, ?_⟩
  intro now nowMs resp content origName h
  unfold processStatement
  rw [if_neg h]
  rfl

/-- Claim C8, witness for the third part's non-empty-content hypothesis. -/
theorem c8_witness :
    ("x" : String) ≠ "" ∧
    (processStatement ⟨2025, 1, 1⟩ 3 "" none "x" "a.csv").2 =
      stampTransactions 3 (sanitizeFileName "a.csv")
        (parseStatement ⟨2025, 1, 1⟩ 3 "x" (sanitizeFileName "a.csv")) :=
  ⟨by decide, c8_theorem.2.2 ⟨2025, 1, 1⟩ 3 none "x" "a.csv" (by decide)⟩

/-! ## Claim C9: asymmetric zero-amount policy -/

/-- Claim C9, counterexample.  A single malformed (JSON null) item DOES
abort the whole batch: alone, the object item with amount 5 is converted
and emitted, but adding one null element to the array makes the unguarded
`typeof item.amount` throw, and the function's catch collapses the entire
batch to the empty list. -/
theorem c9_counterexample :
    geminiConvert ⟨2025, 1, 1⟩ none
        [GExtracted.jnull, GExtracted.obj ⟨none, some "GOOD", JVal.num 5, none⟩] = [] ∧
    convertGItem ⟨2025, 1, 1⟩ none ⟨none, some "GOOD", JVal.num 5, none⟩ ∈
      geminiConvert ⟨2025, 1, 1⟩ none [GExtracted.obj ⟨none, some "GOOD", JVal.num 5, none⟩] := by
  exact ⟨by decide, by decide⟩

/-- Claim C9, amended.  For a batch whose extracted items are all JSON
objects, the assisted-extraction conversion filters only on
`isNaN(amount)` — which removes nothing, since every NaN-producing parse
in that path is already defaulted to 0 — so the output is exactly one
transaction per item and every zero-amount item is retained, in contrast
to the structured parser's non-zero filter (`csvBranch`).  But a JSON null
array element throws at `typeof item.amount` outside any per-item catch,
so one null item empties the whole batch. -/
theorem c9_theorem :
    (∀ (now : YMD) (hint : Option String) (items : List GItem),
      geminiConvert now hint (items.map GExtracted.obj) = items.map (convertGItem now hint)) ∧
    (∀ (now : YMD) (hint : Option String) (items : List GItem) (item : GItem),
      item ∈ items → (convertGItem now hint item).amount = 0 →
      convertGItem now hint item ∈ geminiConvert now hint (items.map GExtracted.obj)) ∧
    (∀ (now : YMD) (hint : Option String) (items : List GExtracted),
      GExtracted.jnull ∈ items → geminiConvert now hint items = []) := by
  have h1 : ∀ (now : YMD) (hint : Option String) (items : List GItem),
      geminiConvert now hint (items.map GExtracted.obj) = items.map (convertGItem now hint) := by
    intro now hint items
    unfold geminiConvert
    rw [List.map_map]
    have hcomp : (convertGExtracted now hint ∘ GExtracted.obj) =
        fun it => Except.ok (convertGItem now hint it) := rfl
    rw [hcomp, collectEx_map_ok]
    dsimp only
    unfold jsIsNaN
    simp only [Bool.not_false]
    exact list_filter_true _
  refine ⟨h1, ?_, ?_⟩
  · intro now hint items item hmem _
    rw [h1]
    exact List.mem_map_of_mem _ hmem
  · intro now hint items hnull
    unfold geminiConvert
    have herr : Except.error () ∈ items.map (convertGExtracted now hint) :=
      List.mem_map_of_mem (convertGExtracted now hint) hnull
    rw [collectEx_error_of_mem herr]

/-- Claim C9, witness: a zero-amount extracted object item is retained. -/
theorem c9_witness :
    (⟨none, none, JVal.num 0, none⟩ : GItem) ∈ [(⟨none, none, JVal.num 0, none⟩ : GItem)] ∧
    (convertGItem ⟨2025, 1, 1⟩ none ⟨none, none, JVal.num 0, none⟩).amount = 0 ∧
    convertGItem ⟨2025, 1, 1⟩ none ⟨none, none, JVal.num 0, none⟩ ∈
      geminiConvert ⟨2025, 1, 1⟩ none [GExtracted.obj ⟨none, none, JVal.num 0, none⟩] :=
  ⟨by decide, by decide,
    c9_theorem.2.1 ⟨2025, 1, 1⟩ none [⟨none, none, JVal.num 0, none⟩]
      ⟨none, none, JVal.num 0, none⟩ (by decide) (by decide)⟩

/-! ## Claim C10: non-consuming line triplets in the fallback scanner -/

/-- Claim C10, counterexample.  Line 0 of `["31/02/24", "x", "5.00"]`
satisfies all of the claim's conditions (no 8-digit run, a date token, a
two-decimal token two lines below), yet no transaction is emitted for it:
"31/02/24" is regex-matched but is not a real calendar date, the
serialization throw aborts the entire scan, and `parseStatement` on the
same content returns the empty list. -/
theorem c10_counterexample :
    plainTextFallback ⟨2025, 1, 1⟩ 0 "acc" ["31/02/24", "x", "5.00"] = Except.error () ∧
    hasRun8 "31/02/24" = false ∧
    matchDateLine "31/02/24" = some (31, 2, some ['2', '4']) ∧
    matchAmountTok "5.00" = some "5.00" ∧
    parseStatement ⟨2025, 1, 1⟩ 0 "31/02/24\nx\n5.00" "f" = [] := by
  exact ⟨by decide, by decide, by decide, by decide, by decide⟩

/-- Claim C10, amended.  Provided the whole scan completes without a
date-serialization throw (`plainTextFallback` returns `ok`), scanned lines
are never consumed: for every index `i` whose line has no word-bounded
8-plus-digit run and carries a date token, and whose line `i+2` carries a
two-decimal numeric token forming a valid calendar date with it, the
corresponding transaction is in the output — even when those same lines
also serve as description or amount lines of other emitted transactions. -/
theorem c10_amended {now : YMD} {nowMs : Nat} {acct : String} {lines : List String}
    {txs : List Transaction} {i : Nat} {dmy : Nat × Nat × Option (List Char)} {astr : String}
    {d : YMD}
    (hok : plainTextFallback now nowMs acct lines = Except.ok txs)
    (hi : i < lines.length)
    (h8 : hasRun8 (lines.getD i "") = false)
    (hdm : matchDateLine (lines.getD i "") = some dmy)
    (ha : matchAmountTok (lines.getD (i + 2) "") = some astr)
    (hd : fallbackDate now dmy = some d) :
    mkFallbackTx nowMs acct d (lines.getD (i + 1) "") astr ∈ txs := by
  have hls : lineScan now nowMs acct lines i =
      some (Except.ok (mkFallbackTx nowMs acct d (lines.getD (i + 1) "") astr)) := by
    unfold lineScan
    rw [h8, hdm, ha]
    dsimp only
    rw [hd]
    rfl
  have hmem : Except.ok (mkFallbackTx nowMs acct d (lines.getD (i + 1) "") astr) ∈
      (List.range lines.length).filterMap (lineScan now nowMs acct lines) :=
    List.mem_filterMap.2 ⟨i, List.mem_range.2 hi, hls⟩
  unfold plainTextFallback at hok
  exact collectEx_mem_ok hok hmem

/-- Claim C10, witness: overlapping triplets — the line "1.00" serves both
as the amount line of the transaction at index 0 and as the description
line of the transaction at index 1, and both transactions are emitted. -/
theorem c10_witness :
    plainTextFallback ⟨2025, 1, 1⟩ 0 "acc" ["01/02/24 a", "02/02/24 b", "1.00", "3.00"] =
      Except.ok
        [mkFallbackTx 0 "acc" ⟨2024, 2, 1⟩ "02/02/24 b" "1.00",
          mkFallbackTx 0 "acc" ⟨2024, 2, 2⟩ "1.00" "3.00"] ∧
    mkFallbackTx 0 "acc" ⟨2024, 2, 2⟩ "1.00" "3.00" ∈
      [mkFallbackTx 0 "acc" ⟨2024, 2, 1⟩ "02/02/24 b" "1.00",
        mkFallbackTx 0 "acc" ⟨2024, 2, 2⟩ "1.00" "3.00"] :=
  ⟨by decide,
    @c10_amended ⟨2025, 1, 1⟩ 0 "acc" ["01/02/24 a", "02/02/24 b", "1.00", "3.00"]
      [mkFallbackTx 0 "acc" ⟨2024, 2, 1⟩ "02/02/24 b" "1.00",
        mkFallbackTx 0 "acc" ⟨2024, 2, 2⟩ "1.00" "3.00"]
      1 (2, 2, some ['2', '4']) "3.00" ⟨2024, 2, 2⟩
      (by decide) (by decide) (by decide) (by decide) (by decide) (by decide)⟩
